import Mathlib

/-!
Shallow embedding of the UAV insurance premium pricing program
(model_operations.py and the per-drone pass of main.py).

Modelling conventions:
* Python floats are modelled as exact rationals; the Riebesell curve,
  which uses pow and log, is modelled over the reals.
* The zero-value guard returns the Python empty string sentinel, modelled
  by the constructor Val.na, distinct from every number.
* Python runtime exceptions (TypeError, KeyError, ValueError,
  ZeroDivisionError) are modelled with an Except monad.  The program
  defines no error types of its own, so PyError has only the built-in
  Python exception kinds that its code can raise.
* Python round is round-half-to-even, modelled exactly on rationals and
  reals.
* Python sorted is a stable sort; on index-tagged entries a stable sort
  by a key in descending order coincides with sorting by the total order
  (key descending, original index ascending), which is how the two
  premium adjustments are modelled.
-/

/-- A Python value flowing through the rating formulas: either a number or
the empty-string NotApplicable sentinel returned by the zero-value guard. -/
inductive Val where
  | num : ℚ → Val
  | na : Val
deriving DecidableEq

/-- The kinds of built-in Python exceptions the embedded code can raise. -/
inductive PyError where
  | typeError : PyError
  | keyError : PyError
  | valueError : PyError
  | zeroDivisionError : PyError
deriving DecidableEq

/-- Python float multiplication of two computed values.  Multiplying the
string sentinel by a float raises TypeError. -/
def pyMul : Val → Val → Except PyError Val
  | Val.num a, Val.num b => Except.ok (Val.num (a * b))
  | _, _ => Except.error PyError.typeError

/-- Python multiplication by the int literal 100, as in the in_percentage
branches.  On the empty-string sentinel, str times int is string
repetition, so the sentinel is returned unchanged, without error. -/
def timesHundredInt : Val → Val
  | Val.num a => Val.num (a * 100)
  | Val.na => Val.na

/-- Python division by the int literal 100, as in calculate_premium.
Dividing the empty-string sentinel by 100 raises TypeError. -/
def divHundred : Val → Except PyError Val
  | Val.num a => Except.ok (Val.num (a / 100))
  | Val.na => Except.error PyError.typeError

/-- Python float division, raising ZeroDivisionError on a zero divisor. -/
def pyDiv (a b : ℚ) : Except PyError ℚ :=
  if b = 0 then Except.error PyError.zeroDivisionError else Except.ok (a / b)

/-- Round half to even on a rational, the tie-breaking rule of Python
round. -/
def roundHalfEven (q : ℚ) : ℤ :=
  if q - ⌊q⌋ < 1/2 then ⌊q⌋
  else if 1/2 < q - ⌊q⌋ then ⌊q⌋ + 1
  else if ⌊q⌋ % 2 = 0 then ⌊q⌋ else ⌊q⌋ + 1

/-- Python round with a digit count, on rationals. -/
def pyRound (q : ℚ) (ndigits : ℕ) : ℚ :=
  (roundHalfEven (q * 10 ^ ndigits) : ℚ) / 10 ^ ndigits

/-- Python round applied to a guarded value, as the orchestrator does to
hull_final_rate and tpl_ilf: rounding the empty-string sentinel raises
TypeError. -/
def pyRoundVal (v : Val) (ndigits : ℕ) : Except PyError Val :=
  match v with
  | Val.num q => Except.ok (Val.num (pyRound q ndigits))
  | Val.na => Except.error PyError.typeError

/-- The rate parameters read once from the configuration document:
gross_base_rates hull and liability entries, the max_takeoff_weight_adj
table, and the ilf_riebesell_curve base_limit and z. -/
structure Params where
  hull : ℚ
  liability : ℚ
  max_takeoff_weight_adj : List (String × ℚ)
  base_limit : ℚ
  z : ℚ

/-- BaseModelOperations._execute_if_not_zero: run the callback if value is
not zero, otherwise return the empty-string sentinel.  The callback is a
lazy closure in the source; here its (possibly erroneous) result is simply
discarded when value is zero. -/
def execute_if_not_zero (value : ℚ) (callback : Except PyError Val) : Except PyError Val :=
  if value = 0 then Except.ok Val.na else callback

/-- BaseModelOperations.calculate_premium: the guarded product of value and
final_rate, divided by the int literal 100 outside the guard. -/
def calculate_premium (final_rate : Val) (value : ℚ) : Except PyError Val :=
  (execute_if_not_zero value (pyMul (Val.num value) final_rate)).bind divHundred

/-- BaseModelOperations.calculate_total_net: the rounded sum of the given
field over the item dicts, a missing field contributing 0. -/
def calculate_total_net (product_list : List (List (String × ℚ))) (insurance_type : String) : ℚ :=
  pyRound ((product_list.map (fun product => ((List.lookup insurance_type product).getD 0))).sum) 0

/-- BaseModelOperations.calculate_total_gross: the net total divided by
(1 - brokerage), rounded.  The source performs the division unguarded. -/
def calculate_total_gross (product_list : List (List (String × ℚ))) (brokerage : ℚ)
    (insurance_type : String) : Except PyError ℚ :=
  let hull_net := calculate_total_net product_list insurance_type
  (pyDiv hull_net (1 - brokerage)).map (fun q => pyRound q 0)

/-- BaseModelOperations.calculate_premium_total: a plain sum. -/
def calculate_premium_total (premiums : List ℚ) : ℚ := premiums.sum

/-- DroneOperations.hull_base_rate: guarded lookup of the configured hull
rate, optionally times 100. -/
def hull_base_rate (P : Params) (drone_value : ℚ) (in_percentage : Bool) : Except PyError Val :=
  let base_rate := execute_if_not_zero drone_value (Except.ok (Val.num P.hull))
  if in_percentage then base_rate.map timesHundredInt else base_rate

/-- DroneOperations.hull_weight_adj: guarded lookup of the weight band in
the max_takeoff_weight_adj table; a missing band raises KeyError (only
when the guard runs the callback, i.e. when the value is nonzero). -/
def hull_weight_adj (P : Params) (drone_value : ℚ) (drone_weight : String) : Except PyError Val :=
  execute_if_not_zero drone_value
    (match List.lookup drone_weight P.max_takeoff_weight_adj with
     | some r => Except.ok (Val.num r)
     | none => Except.error PyError.keyError)

/-- DroneOperations.hull_final_rate: guarded product of hull_base_rate and
hull_weight_adj, optionally times 100. -/
def hull_final_rate (P : Params) (drone_value : ℚ) (drone_weight : String)
    (in_percentage : Bool) : Except PyError Val :=
  let final_rate := execute_if_not_zero drone_value
    (do
      let a ← hull_base_rate P drone_value false
      let b ← hull_weight_adj P drone_value drone_weight
      pyMul a b)
  if in_percentage then final_rate.map timesHundredInt else final_rate

/-- DroneOperations.tpl_base_rate: guarded lookup of the configured
liability rate, optionally times 100. -/
def tpl_base_rate (P : Params) (drone_value : ℚ) (in_percentage : Bool) : Except PyError Val :=
  let base_rate := execute_if_not_zero drone_value (Except.ok (Val.num P.liability))
  if in_percentage then base_rate.map timesHundredInt else base_rate

/-- DroneOperations.tpl_base_layer_premium: guarded product of
tpl_base_rate and the drone value. -/
def tpl_base_layer_premium (P : Params) (drone_value : ℚ) : Except PyError Val :=
  execute_if_not_zero drone_value
    (do
      let r ← tpl_base_rate P drone_value false
      pyMul r (Val.num drone_value))

/-- A value in the TPL curve computations: a real number or the
empty-string NotApplicable sentinel. -/
inductive RVal where
  | num : ℝ → RVal
  | na : RVal

/-- DroneOperations.__calculate_riesebell: pow(x / base_limit,
math.log(1 + z, 2)), i.e. (x / base_limit) to the power log2(1 + z). -/
noncomputable def calculate_riesebell (base_limit z x : ℚ) : ℝ :=
  ((x : ℝ) / (base_limit : ℝ)) ^ Real.logb 2 (1 + (z : ℝ))

/-- DroneOperations.tpl_ilf: the guarded difference of the Riebesell curve
at tpl_limit + tpl_excess and at tpl_excess. -/
noncomputable def tpl_ilf (P : Params) (drone_value tpl_limit tpl_excess : ℚ) : RVal :=
  let tpl_sum := tpl_limit + tpl_excess
  if drone_value = 0 then RVal.na
  else RVal.num (calculate_riesebell P.base_limit P.z tpl_sum
    - calculate_riesebell P.base_limit P.z tpl_excess)

/-- Python float multiplication of a guarded rational value with a guarded
real value, as in the tpl_layer_premium callback. -/
noncomputable def pyMulValR : Val → RVal → Except PyError RVal
  | Val.num a, RVal.num r => Except.ok (RVal.num ((a : ℝ) * r))
  | _, _ => Except.error PyError.typeError

/-- DroneOperations.tpl_layer_premium: guarded product of
tpl_base_layer_premium and tpl_ilf. -/
noncomputable def tpl_layer_premium (P : Params) (drone_value tpl_limit tpl_excess : ℚ) :
    Except PyError RVal :=
  if drone_value = 0 then Except.ok RVal.na
  else do
    let b ← tpl_base_layer_premium P drone_value
    pyMulValR b (tpl_ilf P drone_value tpl_limit tpl_excess)

/-- Round half to even on a real number. -/
noncomputable def roundHalfEvenR (x : ℝ) : ℤ :=
  if x - ⌊x⌋ < 1/2 then ⌊x⌋
  else if 1/2 < x - ⌊x⌋ then ⌊x⌋ + 1
  else if ⌊x⌋ % 2 = 0 then ⌊x⌋ else ⌊x⌋ + 1

/-- Python round with a digit count, on reals. -/
noncomputable def pyRoundR (x : ℝ) (ndigits : ℕ) : ℝ :=
  (roundHalfEvenR (x * 10 ^ ndigits) : ℝ) / 10 ^ ndigits

/-- Python round applied to a guarded real value; rounding the
empty-string sentinel raises TypeError. -/
noncomputable def pyRoundRVal (v : RVal) (ndigits : ℕ) : Except PyError RVal :=
  match v with
  | RVal.num x => Except.ok (RVal.num (pyRoundR x ndigits))
  | RVal.na => Except.error PyError.typeError

/-- An input drone record of the fleet document. -/
structure DroneIn where
  value : ℚ
  weight : String
  has_detachable_camera : Bool
  tpl_limit : ℚ
  tpl_excess : ℚ
deriving DecidableEq

/-- Python max of two floats. -/
def pyMax2 : Val → Val → Except PyError Val
  | Val.num a, Val.num b => Except.ok (Val.num (max a b))
  | _, _ => Except.error PyError.typeError

/-- Python max over a sequence of values: raises ValueError on an empty
sequence, otherwise folds the binary max. -/
def pyMax : List Val → Except PyError Val
  | [] => Except.error PyError.valueError
  | v :: vs => vs.foldlM pyMax2 v

/-- CameraOperations.rate: the Python max of hull_final_rate over the
drones with has_detachable_camera set and value strictly positive,
optionally times 100.  The underlying max raises ValueError when no drone
is eligible. -/
def CameraOperations.rate (P : Params) (drones_list : List DroneIn) (in_percentage : Bool) :
    Except PyError Val := do
  let finals ← (drones_list.filter
      (fun d => d.has_detachable_camera && decide (0 < d.value))).mapM
      (fun d => hull_final_rate P d.value d.weight false)
  let r ← pyMax finals
  pure (if in_percentage then timesHundredInt r else r)

/-- A priced drone record as seen by the premium adjustments. -/
structure FleetDrone where
  serial_number : String
  value : ℚ
  weight : String
  has_detachable_camera : Bool
  tpl_limit : ℚ
  tpl_excess : ℚ
  hull_premium : ℚ
deriving DecidableEq

/-- A priced camera record as seen by the premium adjustments. -/
structure FleetCamera where
  serial_number : String
  value : ℚ
  hull_premium : ℚ
deriving DecidableEq

/-- The total order realised by the stable descending Python sort on
index-tagged records: higher key first, ties by original position. -/
def rankLe {α : Type} (key : α → ℚ) (a b : ℕ × α) : Prop :=
  key b.2 < key a.2 ∨ (key a.2 = key b.2 ∧ a.1 ≤ b.1)

instance {α : Type} (key : α → ℚ) : DecidableRel (rankLe key) := fun a b => by
  unfold rankLe; infer_instance

instance {α : Type} (key : α → ℚ) : IsTotal (ℕ × α) (rankLe key) := ⟨by
  intro a b
  rcases lt_trichotomy (key a.2) (key b.2) with h | h | h
  · exact Or.inr (Or.inl h)
  · rcases Nat.le_total a.1 b.1 with h1 | h1
    · exact Or.inl (Or.inr ⟨h, h1⟩)
    · exact Or.inr (Or.inr ⟨h.symm, h1⟩)
  · exact Or.inl (Or.inl h)⟩

instance {α : Type} (key : α → ℚ) : IsTrans (ℕ × α) (rankLe key) := ⟨by
  intro a b c hab hbc
  rcases hab with h | ⟨he, hi⟩
  · rcases hbc with h2 | ⟨he2, _⟩
    · exact Or.inl (h2.trans h)
    · exact Or.inl (he2 ▸ h)
  · rcases hbc with h2 | ⟨he2, hi2⟩
    · exact Or.inl (he ▸ h2)
    · exact Or.inr ⟨he.trans he2, hi.trans hi2⟩⟩

/-- PremiumAdjustments.limited_drones_in_use: sort the drones by
hull_premium descending (Python sorted, a stable sort, modelled on
index-tagged records by the total order rankLe), overwrite hull_premium
with 150 on every record at sorted position at or beyond
max_drones_in_air, and return the original list, whose records the source
mutates in place through the sorted view. -/
def limited_drones_in_use (drones : List FleetDrone) (max_drones_in_air : ℕ) :
    List FleetDrone :=
  let sorted_drones := List.insertionSort (rankLe (fun d => d.hull_premium)) drones.enum
  let flat := (sorted_drones.drop max_drones_in_air).map Prod.fst
  drones.enum.map (fun p => if p.1 ∈ flat then { p.2 with hull_premium := 150 } else p.2)

/-- PremiumAdjustments.limited_cameras_in_use: when there are more cameras
than max_drones_in_air, sort the cameras by value descending (stable) and
overwrite hull_premium with 50 on every record at sorted position at or
beyond max_drones_in_air; otherwise leave the list untouched.  The drones
argument is accepted and never read, as in the source. -/
def limited_cameras_in_use (cameras : List FleetCamera) (max_drones_in_air : ℕ)
    (drones : List FleetDrone) : List FleetCamera :=
  if max_drones_in_air < cameras.length then
    let cameras_sorted := List.insertionSort (rankLe (fun c => c.value)) cameras.enum
    let flat := (cameras_sorted.drop max_drones_in_air).map Prod.fst
    cameras.enum.map (fun p => if p.1 ∈ flat then { p.2 with hull_premium := 50 } else p.2)
  else cameras

/-- The computed fields the compute_model drone loop writes on one drone. -/
structure DroneOut where
  hull_base_rate : Val
  hull_weight_adjustment : Val
  hull_final_rate : Val
  hull_premium : Val
  tpl_base_rate : Val
  tpl_base_layer_premium : Val
  tpl_ilf : RVal
  tpl_layer_premium : RVal

/-- The drone-loop body of compute_model in main.py, for a single drone:
hull_base_rate as a percentage, the weight adjustment, the final rate as a
percentage rounded to 1 digit, the hull premium from that rounded rate,
the TPL base rate as a percentage, the base layer premium, the ILF rounded
to 2 digits, and the layer premium rounded to 0 digits.  Python
exceptions abort the pass. -/
noncomputable def compute_drone (P : Params) (d : DroneIn) : Except PyError DroneOut := do
  let hbr ← hull_base_rate P d.value true
  let hwa ← hull_weight_adj P d.value d.weight
  let hfr_raw ← hull_final_rate P d.value d.weight true
  let hfr ← pyRoundVal hfr_raw 1
  let hp ← calculate_premium hfr d.value
  let tbr ← tpl_base_rate P d.value true
  let tblp ← tpl_base_layer_premium P d.value
  let ti ← pyRoundRVal (tpl_ilf P d.value d.tpl_limit d.tpl_excess) 2
  let tlp_raw ← tpl_layer_premium P d.value d.tpl_limit d.tpl_excess
  let tlp ← pyRoundRVal tlp_raw 0
  return { hull_base_rate := hbr, hull_weight_adjustment := hwa, hull_final_rate := hfr,
           hull_premium := hp, tpl_base_rate := tbr, tpl_base_layer_premium := tblp,
           tpl_ilf := ti, tpl_layer_premium := tlp }

/-- The rate parameters of the reference configuration, as pinned by the
unit tests of the repository and by the specification fixture table. -/
def exampleParams : Params :=
  { hull := 3/5
    liability := 1/5
    max_takeoff_weight_adj :=
      [("0 - 5kg", 1), ("5 - 10kg", 6/5), ("10 - 20kg", 8/5), (">20kg", 5/2)]
    base_limit := 1000000
    z := 1/5 }

/-- The three input drones of the reference fixture data. -/
def exampleDrones : List DroneIn :=
  [ { value := 10000, weight := "0 - 5kg", has_detachable_camera := true,
      tpl_limit := 1000000, tpl_excess := 0 },
    { value := 12000, weight := "10 - 20kg", has_detachable_camera := false,
      tpl_limit := 4000000, tpl_excess := 1000000 },
    { value := 15000, weight := "5 - 10kg", has_detachable_camera := true,
      tpl_limit := 5000000, tpl_excess := 5000000 } ]

/-- A fleet in which no drone has both a detachable camera and a strictly
positive value. -/
def noEligibleDrones : List DroneIn :=
  [ { value := 12000, weight := "10 - 20kg", has_detachable_camera := false,
      tpl_limit := 0, tpl_excess := 0 },
    { value := 0, weight := "0 - 5kg", has_detachable_camera := true,
      tpl_limit := 0, tpl_excess := 0 } ]

/-- A drone with a negative value and otherwise valid fields. -/
def negValueDrone : DroneIn :=
  { value := -10000, weight := "0 - 5kg", has_detachable_camera := true,
    tpl_limit := 1000000, tpl_excess := 0 }

/-- A drone whose weight band is absent from the configured table. -/
def unknownBandDrone : DroneIn :=
  { value := 10000, weight := "99kg", has_detachable_camera := true,
    tpl_limit := 1000000, tpl_excess := 0 }

/-- The priced item lists of the reference fixture, as field maps. -/
def exampleItems : List (List (String × ℚ)) :=
  [[("hull_premium", 600)], [("hull_premium", 1152)], [("hull_premium", 1080)]]

/-- Two priced drones that both already carry hull_premium 150. -/
def tiedFleet : List FleetDrone :=
  [ { serial_number := "AAA-111", value := 1000, weight := "0 - 5kg",
      has_detachable_camera := true, tpl_limit := 0, tpl_excess := 0, hull_premium := 150 },
    { serial_number := "BBB-222", value := 1000, weight := "0 - 5kg",
      has_detachable_camera := true, tpl_limit := 0, tpl_excess := 0, hull_premium := 150 } ]

/-- The priced reference fleet with computed hull premiums 600, 1152,
1080. -/
def exampleFleet : List FleetDrone :=
  [ { serial_number := "AAA-111", value := 10000, weight := "0 - 5kg",
      has_detachable_camera := true, tpl_limit := 1000000, tpl_excess := 0,
      hull_premium := 600 },
    { serial_number := "BBB-222", value := 12000, weight := "10 - 20kg",
      has_detachable_camera := false, tpl_limit := 4000000, tpl_excess := 1000000,
      hull_premium := 1152 },
    { serial_number := "AAA-123", value := 15000, weight := "5 - 10kg",
      has_detachable_camera := true, tpl_limit := 5000000, tpl_excess := 5000000,
      hull_premium := 1080 } ]

/-- The stable descending rank of the specification: the number of items
strictly ahead of position i, namely those with a larger key and those
with an equal key and an earlier original position (0-based). -/
def rank_desc_stable (ps : List ℚ) (i : ℕ) (p : ℚ) : ℕ :=
  ps.enum.countP (fun jq => decide (p < jq.2 ∨ (jq.2 = p ∧ jq.1 < i)))

/-! Small reduction toolkit for the Except monad, used to evaluate the
embedded operations on concrete inputs. -/

@[simp]
theorem exceptOkBind {ε α β : Type} (a : α) (f : α → Except ε β) :
    (Except.ok a : Except ε α) >>= f = f a := rfl

@[simp]
theorem exceptErrorBind {ε α β : Type} (e : ε) (f : α → Except ε β) :
    (Except.error e : Except ε α) >>= f = Except.error e := rfl

@[simp]
theorem exceptPureEq {ε α : Type} (a : α) : (pure a : Except ε α) = Except.ok a := rfl

@[simp]
theorem exceptMapOk {ε α β : Type} (f : α → β) (a : α) :
    (Except.ok a : Except ε α).map f = Except.ok (f a) := rfl

@[simp]
theorem exceptMapError {ε α β : Type} (f : α → β) (e : ε) :
    (Except.error e : Except ε α).map f = Except.error e := rfl

/-- The guard returns the sentinel exactly on a zero value. -/
@[simp]
theorem execute_if_not_zero_zero (cb : Except PyError Val) :
    execute_if_not_zero 0 cb = Except.ok Val.na := by
  simp [execute_if_not_zero]

/-- The guard runs the callback exactly on a nonzero value. -/
theorem execute_if_not_zero_ne {v : ℚ} (h : v ≠ 0) (cb : Except PyError Val) :
    execute_if_not_zero v cb = cb := by
  simp [execute_if_not_zero, h]

/-- Rounding a rational that is an integer returns it unchanged. -/
theorem roundHalfEven_intCast (n : ℤ) : roundHalfEven ((n : ℚ)) = n := by
  unfold roundHalfEven
  rw [Int.floor_intCast]
  norm_num

/-- Python round to 0 digits of an integral rational returns it
unchanged. -/
theorem pyRound_zero_int (n : ℤ) : pyRound ((n : ℚ)) 0 = ((n : ℚ)) := by
  unfold pyRound
  rw [pow_zero, mul_one, roundHalfEven_intCast, div_one]

/-- Unfolded form of calculate_total_gross. -/
theorem calculate_total_gross_def (product_list : List (List (String × ℚ))) (brokerage : ℚ)
    (insurance_type : String) :
    calculate_total_gross product_list brokerage insurance_type
      = (pyDiv (calculate_total_net product_list insurance_type) (1 - brokerage)).map
          (fun q => pyRound q 0) := rfl

/-- Division behaviour of pyDiv on a nonzero divisor. -/
theorem pyDiv_ne {b : ℚ} (a : ℚ) (h : b ≠ 0) : pyDiv a b = Except.ok (a / b) := by
  simp [pyDiv, h]

/-- pyDiv raises ZeroDivisionError on a zero divisor. -/
theorem pyDiv_zero (a : ℚ) : pyDiv a 0 = Except.error PyError.zeroDivisionError := by
  simp [pyDiv]

/-- Unfolded form of limited_drones_in_use. -/
theorem limited_drones_in_use_def (drones : List FleetDrone) (k : ℕ) :
    limited_drones_in_use drones k
      = drones.enum.map (fun p =>
          if p.1 ∈ (((List.insertionSort (rankLe (fun d => d.hull_premium)) drones.enum).drop k).map
              Prod.fst)
          then { p.2 with hull_premium := 150 } else p.2) := rfl

/-- Claim C1: for a zero-value item every guarded formula operation
returns the NotApplicable sentinel (the empty string), which is distinct
from zero and from every error; but calculate_premium divides the guarded
result by 100 outside the guard and therefore raises TypeError at value
zero, and the compute_model drone pass raises TypeError when it rounds the
sentinel final rate, instead of writing sentinels without error. -/
theorem zero_value_guard_behaviour :
    (∀ (P : Params) (pct : Bool), hull_base_rate P 0 pct = Except.ok Val.na)
  ∧ (∀ (P : Params) (w : String), hull_weight_adj P 0 w = Except.ok Val.na)
  ∧ (∀ (P : Params) (w : String) (pct : Bool), hull_final_rate P 0 w pct = Except.ok Val.na)
  ∧ (∀ (P : Params) (pct : Bool), tpl_base_rate P 0 pct = Except.ok Val.na)
  ∧ (∀ (P : Params), tpl_base_layer_premium P 0 = Except.ok Val.na)
  ∧ (∀ (P : Params) (l e : ℚ), tpl_ilf P 0 l e = RVal.na)
  ∧ (∀ (P : Params) (l e : ℚ), tpl_layer_premium P 0 l e = Except.ok RVal.na)
  ∧ (∀ (q : ℚ), Val.num q ≠ Val.na)
  ∧ (∀ (f : Val), calculate_premium f 0 = Except.error PyError.typeError)
  ∧ (∀ (P : Params) (w : String) (cam : Bool) (l e : ℚ),
      compute_drone P ⟨0, w, cam, l, e⟩ = Except.error PyError.typeError) := by
  refine ⟨?_, ?_, ?_, ?_, ?_, ?_, ?_, ?_, ?_, ?_⟩
  · intro P pct; cases pct <;> rfl
  · intro P w; rfl
  · intro P w pct; cases pct <;> rfl
  · intro P pct; cases pct <;> rfl
  · intro P; rfl
  · intro P l e; rfl
  · intro P l e; rfl
  · intro q h; exact Val.noConfusion h
  · intro f; rfl
  · intro P w cam l e; rfl

/-- Claim C2: on a fleet with no drone having both a detachable camera and
a positive value, CameraOperations.rate raises the uncaught built-in
ValueError of Python max over an empty sequence (the program defines no
NoEligibleDrone error anywhere); on the reference fleet with eligible
drones it returns the maximum final hull rate of the eligible drones,
here 0.6 * 1.2 = 18/25. -/
theorem camera_rate_no_eligible_crash :
    CameraOperations.rate exampleParams noEligibleDrones false
      = Except.error PyError.valueError
  ∧ CameraOperations.rate exampleParams exampleDrones false
      = Except.ok (Val.num (18/25)) := by
  constructor
  · rfl
  · show CameraOperations.rate exampleParams exampleDrones false = Except.ok (Val.num (18/25))
    norm_num [CameraOperations.rate, exampleDrones, exampleParams, List.filter,
      hull_final_rate, hull_base_rate, hull_weight_adj, execute_if_not_zero, pyMul,
      pyMax, pyMax2, List.lookup, List.mapM, List.mapM.loop, List.foldlM_cons,
      List.foldlM_nil, max_def,
      show (("5 - 10kg" == "0 - 5kg")) = false from by decide]

/-- Claim C4: calculate_total_gross performs no brokerage validation: at
brokerage 1 it raises the unguarded ZeroDivisionError of the division by
(1 - brokerage), and at brokerage 2, outside [0, 1), it silently returns a
(negative) numeric result. -/
theorem total_gross_brokerage_unvalidated :
    calculate_total_gross exampleItems 1 ("hull_premium")
      = Except.error PyError.zeroDivisionError
  ∧ calculate_total_gross exampleItems 2 ("hull_premium")
      = Except.ok (-2832) := by
  have hnet : calculate_total_net exampleItems ("hull_premium") = ((2832 : ℤ) : ℚ) := by
    unfold calculate_total_net
    rw [show ((exampleItems.map
        (fun product => ((List.lookup ("hull_premium") product).getD 0))).sum : ℚ)
        = ((2832 : ℤ) : ℚ) from by norm_num [exampleItems, List.lookup]]
    exact pyRound_zero_int 2832
  constructor
  · rw [calculate_total_gross_def, show ((1 : ℚ) - 1) = 0 from by norm_num, pyDiv_zero,
      exceptMapError]
  · rw [calculate_total_gross_def, hnet,
      pyDiv_ne _ (show ((1 : ℚ) - 2) ≠ 0 from by norm_num), exceptMapOk,
      show (((2832 : ℤ) : ℚ) / (1 - 2)) = ((-2832 : ℤ) : ℚ) from by norm_num,
      pyRound_zero_int]
    norm_num

/-- Claim C8: the system performs no input validation: the compute_model
drone pass accepts a drone with a negative value and computes all its
premium fields without any error, and a drone with an unknown weight band
raises the built-in KeyError of the table lookup during rating, not a
validation error at ingestion. -/
theorem ingestion_no_validation :
    (∃ out : DroneOut, compute_drone exampleParams negValueDrone = Except.ok out)
  ∧ compute_drone exampleParams unknownBandDrone = Except.error PyError.keyError :=
  ⟨⟨_, rfl⟩, rfl⟩

/-- Claim C9: limited_cameras_in_use never reads its drones argument: its
result is identical for any two drone fleets. -/
theorem limited_cameras_in_use_ignores_drones
    (cameras : List FleetCamera) (cap : ℕ) (d1 d2 : List FleetDrone) :
    limited_cameras_in_use cameras cap d1 = limited_cameras_in_use cameras cap d2 := rfl

/-- Claim C10: limited_drones_in_use returns the fleet in its original
order and, on every record, changes no field other than hull_premium:
erasing hull_premium on both sides yields the untouched input list. -/
theorem limited_drones_in_use_frame (drones : List FleetDrone) (k : ℕ) :
    (limited_drones_in_use drones k).map (fun d => { d with hull_premium := 0 })
      = drones.map (fun d => { d with hull_premium := 0 }) := by
  rw [limited_drones_in_use_def, List.map_map]
  have h : ∀ p ∈ drones.enum,
      ((fun d => { d with hull_premium := (0:ℚ) }) ∘
        (fun p : ℕ × FleetDrone =>
          if p.1 ∈ (((List.insertionSort (rankLe (fun d => d.hull_premium)) drones.enum).drop
              k).map Prod.fst)
          then { p.2 with hull_premium := 150 } else p.2)) p
        = (fun q : ℕ × FleetDrone => { q.2 with hull_premium := (0:ℚ) }) p := by
    intro p hp
    simp only [Function.comp_apply]
    by_cases hm : p.1 ∈ (((List.insertionSort (rankLe (fun d => d.hull_premium))
        drones.enum).drop k).map Prod.fst)
    · rw [if_pos hm]
    · rw [if_neg hm]
  rw [List.map_congr_left h]
  have h2 : (fun q : ℕ × FleetDrone => { q.2 with hull_premium := (0:ℚ) })
      = (fun d : FleetDrone => { d with hull_premium := (0:ℚ) }) ∘ Prod.snd := rfl
  rw [h2, ← List.map_map, List.enum_map_snd]

/-- Claim C5: for brokerage in [0, 1), calculate_total_gross equals the
rounded quotient of the net total by (1 - brokerage), and
calculate_total_net is the rounded sum of the field over the items, a
missing field contributing zero. -/
theorem calculate_total_gross_spec (items : List (List (String × ℚ))) (brokerage : ℚ)
    (field : String) (h0 : 0 ≤ brokerage) (h1 : brokerage < 1) :
    calculate_total_gross items brokerage field
      = Except.ok (pyRound (calculate_total_net items field / (1 - brokerage)) 0)
  ∧ calculate_total_net items field
      = pyRound ((items.map (fun item => ((List.lookup field item).getD 0))).sum) 0 := by
  constructor
  · rw [calculate_total_gross_def, pyDiv_ne _ (sub_ne_zero.mpr (Ne.symm (ne_of_lt h1))),
      exceptMapOk]
  · rfl

/-- Witness for claim C5 at the reference fixture with brokerage 0.3. -/
theorem calculate_total_gross_spec_witness :
    (0 ≤ (3/10 : ℚ)) ∧ ((3/10 : ℚ) < 1)
  ∧ (calculate_total_gross exampleItems (3/10) ("hull_premium")
      = Except.ok (pyRound (calculate_total_net exampleItems ("hull_premium") / (1 - 3/10)) 0)
    ∧ calculate_total_net exampleItems ("hull_premium")
      = pyRound ((exampleItems.map
          (fun item => ((List.lookup ("hull_premium") item).getD 0))).sum) 0) :=
  ⟨by norm_num, by norm_num,
    calculate_total_gross_spec exampleItems (3/10) ("hull_premium") (by norm_num) (by norm_num)⟩

/-- Claim C7: for every weight band present in the table,
hull_final_rate is exactly the product of hull_base_rate and
hull_weight_adj (all with the percentage option off): at a zero value all
three are the NotApplicable sentinel, and at a nonzero value the final
rate is the exact product of the two looked-up numbers. -/
theorem hull_final_rate_eq_product (P : Params) (v : ℚ) (w : String)
    (hw : ∃ r : ℚ, List.lookup w P.max_takeoff_weight_adj = some r) :
    (v = 0 → hull_base_rate P v false = Except.ok Val.na
      ∧ hull_weight_adj P v w = Except.ok Val.na
      ∧ hull_final_rate P v w false = Except.ok Val.na)
  ∧ (v ≠ 0 → ∃ a b : ℚ, hull_base_rate P v false = Except.ok (Val.num a)
      ∧ hull_weight_adj P v w = Except.ok (Val.num b)
      ∧ hull_final_rate P v w false = Except.ok (Val.num (a * b))) := by
  obtain ⟨r, hr⟩ := hw
  constructor
  · intro hv; subst hv
    exact ⟨rfl, rfl, rfl⟩
  · intro hv
    refine ⟨P.hull, r, ?_, ?_, ?_⟩
    · simp [hull_base_rate, execute_if_not_zero, hv]
    · simp [hull_weight_adj, execute_if_not_zero, hv, hr]
    · simp [hull_final_rate, hull_base_rate, hull_weight_adj, execute_if_not_zero, hv, hr,
        pyMul]

/-- Witness for claim C7 at the reference parameters, value 10000 and the
band 0 - 5kg. -/
theorem hull_final_rate_eq_product_witness :
    (∃ r : ℚ, List.lookup ("0 - 5kg") exampleParams.max_takeoff_weight_adj = some r)
  ∧ (((10000 : ℚ) = 0 → hull_base_rate exampleParams 10000 false = Except.ok Val.na
      ∧ hull_weight_adj exampleParams 10000 ("0 - 5kg") = Except.ok Val.na
      ∧ hull_final_rate exampleParams 10000 ("0 - 5kg") false = Except.ok Val.na)
    ∧ ((10000 : ℚ) ≠ 0 → ∃ a b : ℚ,
        hull_base_rate exampleParams 10000 false = Except.ok (Val.num a)
      ∧ hull_weight_adj exampleParams 10000 ("0 - 5kg") = Except.ok (Val.num b)
      ∧ hull_final_rate exampleParams 10000 ("0 - 5kg") false = Except.ok (Val.num (a * b)))) :=
  ⟨⟨1, rfl⟩, hull_final_rate_eq_product exampleParams 10000 ("0 - 5kg") ⟨1, rfl⟩⟩

/-- Claim C6: for a nonzero drone value and nonnegative limit and excess,
tpl_ilf is exactly the difference of the Riebesell curve, whose value at x
is (x divided by base_limit) to the power log2(1 + z), taken at
limit + excess and at excess; in particular the ILF of the base limit
layer with zero excess is exactly 1. -/
theorem tpl_ilf_riesebell_difference (P : Params) (v l e : ℚ)
    (hv : v ≠ 0) (hl : 0 ≤ l) (he : 0 ≤ e) (hb : 0 < P.base_limit) (hz : 0 < P.z) :
    tpl_ilf P v l e
      = RVal.num (calculate_riesebell P.base_limit P.z (l + e)
          - calculate_riesebell P.base_limit P.z e)
  ∧ tpl_ilf P v P.base_limit 0 = RVal.num 1 := by
  have hb0 : ((P.base_limit : ℚ) : ℝ) ≠ 0 := by
    exact_mod_cast ne_of_gt hb
  have hlog : Real.logb 2 (1 + (P.z : ℝ)) ≠ 0 := by
    have hz1 : (1 : ℝ) < 1 + (P.z : ℝ) := by
      have hzr : (0 : ℝ) < (P.z : ℝ) := by exact_mod_cast hz
      linarith
    exact ne_of_gt (Real.logb_pos one_lt_two hz1)
  constructor
  · simp [tpl_ilf, hv]
  · have h1 : calculate_riesebell P.base_limit P.z P.base_limit = 1 := by
      unfold calculate_riesebell
      rw [div_self hb0, Real.one_rpow]
    have h2 : calculate_riesebell P.base_limit P.z 0 = 0 := by
      unfold calculate_riesebell
      rw [Rat.cast_zero, zero_div, Real.zero_rpow hlog]
    simp [tpl_ilf, hv, h1, h2]

/-- Witness for claim C6 at the reference curve parameters, value 10000,
limit 1000000 (the base limit) and excess 0. -/
theorem tpl_ilf_riesebell_difference_witness :
    ((10000 : ℚ) ≠ 0) ∧ ((0 : ℚ) ≤ 1000000) ∧ ((0 : ℚ) ≤ 0)
  ∧ (0 < exampleParams.base_limit) ∧ (0 < exampleParams.z)
  ∧ (tpl_ilf exampleParams 10000 1000000 0
      = RVal.num (calculate_riesebell exampleParams.base_limit exampleParams.z (1000000 + 0)
          - calculate_riesebell exampleParams.base_limit exampleParams.z 0)
    ∧ tpl_ilf exampleParams 10000 exampleParams.base_limit 0 = RVal.num 1) :=
  ⟨by norm_num, by norm_num, le_refl 0, by norm_num [exampleParams], by norm_num [exampleParams],
    tpl_ilf_riesebell_difference exampleParams 10000 1000000 0 (by norm_num) (by norm_num)
      (le_refl 0) (by norm_num [exampleParams]) (by norm_num [exampleParams])⟩

/-- The strict part of rankLe: strictly ahead in the stable descending
order (larger key, or equal key and earlier original position). -/
def rankLt {α : Type} (key : α → ℚ) (a b : ℕ × α) : Prop :=
  key b.2 < key a.2 ∨ (key a.2 = key b.2 ∧ a.1 < b.1)

instance {α : Type} (key : α → ℚ) : DecidableRel (rankLt key) := fun a b => by
  unfold rankLt; infer_instance

theorem rankLt_asymm {α : Type} (key : α → ℚ) (a b : ℕ × α) :
    rankLt key a b → rankLt key b a → False := by
  intro h1 h2
  rcases h1 with h1 | ⟨he1, hi1⟩
  · rcases h2 with h2 | ⟨he2, hi2⟩
    · exact lt_asymm h1 h2
    · rw [he2] at h1; exact lt_irrefl _ h1
  · rcases h2 with h2 | ⟨he2, hi2⟩
    · rw [he1] at h2; exact lt_irrefl _ h2
    · exact Nat.lt_asymm hi1 hi2

theorem rankLt_irrefl {α : Type} (key : α → ℚ) (x : ℕ × α) : ¬ rankLt key x x :=
  fun h => rankLt_asymm key x x h h

/-- In a list pairwise ordered by the strict relation, an element lies in
the part dropped at position k exactly when at least k list elements are
strictly ahead of it. -/
theorem mem_drop_iff_countP {α : Type} (key : α → ℚ) :
    ∀ (s : List (ℕ × α)), List.Pairwise (rankLt key) s →
      ∀ x ∈ s, ∀ k : ℕ,
        (x ∈ s.drop k ↔ k ≤ List.countP (fun y => decide (rankLt key y x)) s) := by
  intro s
  induction s with
  | nil => intro _ x hx; cases hx
  | cons a t ih =>
    intro hp x hx k
    have ha := (List.pairwise_cons.mp hp).1
    have ht := (List.pairwise_cons.mp hp).2
    cases k with
    | zero =>
      simp only [List.drop_zero]
      exact ⟨fun _ => Nat.zero_le _, fun _ => hx⟩
    | succ k =>
      have hdrop : (a :: t).drop (k + 1) = t.drop k := rfl
      rw [hdrop, List.countP_cons]
      rcases List.mem_cons.mp hx with rfl | hxt
      · have hcz : List.countP (fun y => decide (rankLt key y x)) t = 0 := by
          rw [List.countP_eq_zero]
          intro y hy hdy
          exact rankLt_asymm key x y (ha y hy) (of_decide_eq_true hdy)
        have hax : (decide (rankLt key x x)) = false :=
          decide_eq_false (rankLt_irrefl key x)
        rw [hcz, hax]
        simp only [Bool.false_eq_true, if_false, Nat.add_zero]
        refine iff_of_false ?_ (by omega)
        intro hmem
        exact rankLt_irrefl key x (ha x (List.mem_of_mem_drop hmem))
      · have hax : decide (rankLt key a x) = true := decide_eq_true (ha x hxt)
        rw [hax]
        simp only [if_true]
        rw [ih ht x hxt k]
        omega

/-- A list whose image under f has no duplicates is pairwise
f-distinguishable. -/
theorem pairwise_ne_of_nodup_map {α β : Type} (f : α → β) :
    ∀ {l : List α}, (l.map f).Nodup → l.Pairwise (fun a b => f a ≠ f b) := by
  intro l
  induction l with
  | nil => intro _; exact List.Pairwise.nil
  | cons a t ih =>
    intro h
    rw [List.map_cons, List.nodup_cons] at h
    refine List.pairwise_cons.mpr ⟨?_, ih h.2⟩
    intro y hy heq
    exact h.1 (by rw [heq]; exact List.mem_map_of_mem f hy)

/-- The stable descending sort of an index-tagged list is pairwise
strictly ordered by rankLt. -/
theorem sorted_pairwise_rankLt {α : Type} (key : α → ℚ) (l : List α) :
    List.Pairwise (rankLt key) (List.insertionSort (rankLe key) l.enum) := by
  have hs : List.Pairwise (rankLe key) (List.insertionSort (rankLe key) l.enum) :=
    List.sorted_insertionSort (rankLe key) l.enum
  have hperm : (List.insertionSort (rankLe key) l.enum).Perm l.enum :=
    List.perm_insertionSort (rankLe key) l.enum
  have hnodupfst : ((List.insertionSort (rankLe key) l.enum).map Prod.fst).Nodup := by
    have h1 : (l.enum.map Prod.fst).Nodup := by
      rw [List.enum_map_fst]; exact List.nodup_range l.length
    exact ((hperm.map Prod.fst).nodup_iff).mpr h1
  have hpne : (List.insertionSort (rankLe key) l.enum).Pairwise
      (fun a b => Prod.fst a ≠ Prod.fst b) := pairwise_ne_of_nodup_map Prod.fst hnodupfst
  refine (hs.and hpne).imp ?_
  intro a b h
  rcases h.1 with hlt | ⟨heq, hle⟩
  · exact Or.inl hlt
  · exact Or.inr ⟨heq, Nat.lt_of_le_of_ne hle h.2⟩

/-- Two entries of an enumerated list with the same index are equal. -/
theorem enum_eq_of_fst_eq {α : Type} {l : List α} {p q : ℕ × α}
    (hp : p ∈ l.enum) (hq : q ∈ l.enum) (h : p.1 = q.1) : p = q := by
  rcases p with ⟨i, a⟩
  rcases q with ⟨j, b⟩
  simp only at h
  subst h
  have h1 := List.mem_enum hp
  have h2 := List.mem_enum hq
  rw [h1.2.trans h2.2.symm]

/-- Counting the entries strictly ahead of an entry in the stable
descending order equals the rank the specification describes. -/
theorem countP_rankLt_eq_rank {α : Type} (key : α → ℚ) (l : List α) (p : ℕ × α) :
    List.countP (fun y => decide (rankLt key y p)) l.enum
      = rank_desc_stable (l.map key) p.1 (key p.2) := by
  unfold rank_desc_stable
  rw [List.enum_map, List.countP_map]
  apply List.countP_congr
  intro x hx
  simp only [Function.comp_apply, Prod.map_fst, Prod.map_snd, id_eq, decide_eq_true_eq]
  exact Iff.rfl

/-- Membership of an index in the dropped tail of the stable descending
sort coincides with the specification rank being at least k. -/
theorem drop_fst_mem_iff {α : Type} (key : α → ℚ) (l : List α) (k : ℕ) :
    ∀ p ∈ l.enum,
      (p.1 ∈ (((List.insertionSort (rankLe key) l.enum).drop k).map Prod.fst)
        ↔ k ≤ rank_desc_stable (l.map key) p.1 (key p.2)) := by
  intro p hp
  have hpl := sorted_pairwise_rankLt key l
  have hperm : (List.insertionSort (rankLe key) l.enum).Perm l.enum :=
    List.perm_insertionSort (rankLe key) l.enum
  have hps : p ∈ List.insertionSort (rankLe key) l.enum := hperm.mem_iff.mpr hp
  constructor
  · intro hmem
    obtain ⟨q, hq, hfst⟩ := List.mem_map.mp hmem
    have hq_enum : q ∈ l.enum := hperm.mem_iff.mp (List.mem_of_mem_drop hq)
    have hqp : q = p := enum_eq_of_fst_eq hq_enum hp hfst
    have h1 := (mem_drop_iff_countP key _ hpl p hps k).mp (hqp ▸ hq)
    rw [hperm.countP_eq, countP_rankLt_eq_rank key l p] at h1
    exact h1
  · intro hle
    have h1 : k ≤ List.countP (fun y => decide (rankLt key y p))
        (List.insertionSort (rankLe key) l.enum) := by
      rw [hperm.countP_eq, countP_rankLt_eq_rank key l p]
      exact hle
    exact List.mem_map.mpr ⟨p, (mem_drop_iff_countP key _ hpl p hps k).mpr h1, rfl⟩

/-- Exactly length - k entries have specification rank at least k. -/
theorem count_rank_ge {α : Type} [DecidableEq α] (key : α → ℚ) (l : List α) (k : ℕ) :
    l.enum.countP (fun p => decide (k ≤ rank_desc_stable (l.map key) p.1 (key p.2)))
      = l.length - k := by
  have hperm : (List.insertionSort (rankLe key) l.enum).Perm l.enum :=
    List.perm_insertionSort (rankLe key) l.enum
  have henum_nodup : l.enum.Nodup :=
    List.Nodup.of_map Prod.fst (by rw [List.enum_map_fst]; exact List.nodup_range l.length)
  have hs_nodup : (List.insertionSort (rankLe key) l.enum).Nodup :=
    hperm.nodup_iff.mpr henum_nodup
  have hdrop_nodup : ((List.insertionSort (rankLe key) l.enum).drop k).Nodup :=
    List.Nodup.sublist (List.drop_sublist k _) hs_nodup
  have hcongr : l.enum.countP
      (fun p => decide (k ≤ rank_desc_stable (l.map key) p.1 (key p.2)))
      = l.enum.countP
        (fun p => decide (p ∈ ((List.insertionSort (rankLe key) l.enum).drop k))) := by
    apply List.countP_congr
    intro x hx
    simp only [decide_eq_true_eq]
    constructor
    · intro h
      obtain ⟨q, hq, hfst⟩ := List.mem_map.mp ((drop_fst_mem_iff key l k x hx).mpr h)
      have hqp : q = x := enum_eq_of_fst_eq
        (hperm.mem_iff.mp (List.mem_of_mem_drop hq)) hx hfst
      exact hqp ▸ hq
    · intro h
      exact (drop_fst_mem_iff key l k x hx).mp (List.mem_map_of_mem Prod.fst h)
  rw [hcongr, List.countP_eq_length_filter]
  have hfperm : List.Perm
      (l.enum.filter (fun p => decide (p ∈ ((List.insertionSort (rankLe key) l.enum).drop k))))
      ((List.insertionSort (rankLe key) l.enum).drop k) := by
    rw [List.perm_ext_iff_of_nodup (List.Nodup.filter _ henum_nodup) hdrop_nodup]
    intro x
    rw [List.mem_filter]
    simp only [decide_eq_true_eq]
    constructor
    · intro h; exact h.2
    · intro h
      exact ⟨hperm.mem_iff.mp (List.mem_of_mem_drop h), h⟩
  rw [hfperm.length_eq, List.length_drop, hperm.length_eq, List.enum_length]

/-- Claim C3 counterexample: with two drones both already carrying
hull_premium 150 and capacity k = 1 < N = 2, both drones end with
hull_premium 150, so the number of drones at 150 is 2, not exactly
N - k = 1 as the claim states. -/
theorem limited_drones_count_exact_fails :
    ¬ (((limited_drones_in_use tiedFleet 1).countP
        (fun d => decide (d.hull_premium = 150))) = tiedFleet.length - 1) := by decide

set_option maxHeartbeats 2000000 in
/-- Claim C3 (amended): after limited_drones_in_use with capacity k,
every drone whose stable descending rank by original hull_premium is at
least k (0-based, ties broken by original position) has hull_premium
overwritten with 150, every drone ranked before k keeps its computed
hull_premium, and the number of overwritten drones is exactly N - k. -/
theorem limited_drones_in_use_spec (drones : List FleetDrone) (k : ℕ) :
    ((limited_drones_in_use drones k).map (fun d => d.hull_premium)
      = drones.enum.map (fun p =>
          if k ≤ rank_desc_stable (drones.map (fun d => d.hull_premium)) p.1 p.2.hull_premium
          then 150 else p.2.hull_premium))
  ∧ drones.enum.countP (fun p =>
        decide (k ≤ rank_desc_stable (drones.map (fun d => d.hull_premium)) p.1
          p.2.hull_premium))
      = drones.length - k := by
  have hiff := drop_fst_mem_iff (fun d : FleetDrone => d.hull_premium) drones k
  constructor
  · rw [limited_drones_in_use_def, List.map_map]
    apply List.map_congr_left
    intro p hp
    simp only [Function.comp_apply]
    rw [apply_ite (fun d : FleetDrone => d.hull_premium)]
    exact if_congr (hiff p hp) rfl rfl
  · exact count_rank_ge (fun d => d.hull_premium) drones k
